import Mathlib

/-!
# Verification of the "Message in a Bottle" session store and visualization

A shallow embedding of the in-memory session store of `src/app.js`
(the `SessionManager`-backed definitions starting at line 1000, which
are the ones in effect at runtime) and of the ocean-bottle
reconciliation logic of the Three.js scene file.

Modelling conventions:
* JS strings are `String`, JS numbers used as millisecond timestamps are
  `Int` (they are integral in the source; `Date.now()` arithmetic is
  exact integer arithmetic in the float range used here).
* `window.globalSessions` (the canonical store written by
  `SessionManager.save`) is an insertion-ordered association list from
  session code to session.  The `AppState.sessions` map is a read-through
  cache that mirrors `globalSessions` and is never consulted for a read
  that could disagree with it, so it is not part of the model state.
* The JS `Set` of participants is a duplicate-free insertion-ordered
  `List String`; `SessionManager.addParticipant` only inserts ids that
  are absent, reproducing `Set` semantics.
* Dispatched `CustomEvent`s are recorded in an event log so that
  "no event emitted" claims are statable.
* Random inputs (`Math.random`-derived ids, colors, code draws) and the
  clock are passed in explicitly as parameters.
* `generateBottlePosition(index)` maps the insertion index through
  cos/sin of the golden angle to real coordinates; no claim inspects the
  numeric coordinates, so a message stores the insertion index that the
  source feeds to that function (field `bottlePosition`).
* The `autoCloseTimer` handle (always `null` in stored data, a DOM timer
  id) and `console.log` calls are dropped.
-/

/-- One student submission, as built by `addMessage` in `src/app.js`. -/
structure Message where
  id : String
  participantId : String
  studentName : Option String
  isAnonymous : Bool
  selectedOption : Option String
  messageText : String
  wordCount : Nat
  timestamp : Int
  isRead : Bool
  bottlePosition : Nat
  bottleColor : String
  deriving Repr, DecidableEq

/-- One session record, as built by `createSession` in `src/app.js`. -/
structure Session where
  id : String
  mode : String
  question : Option String
  optionA : Option String
  optionB : Option String
  timeout : Int
  createdAt : Int
  isActive : Bool
  participants : List String
  messages : List Message
  deriving Repr, DecidableEq

/-- The `CustomEvent`s dispatched on `window` by the store code. -/
inductive StoreEvent where
  | sessionsUpdated
  | sessionCreated (sessionId : String)
  | messageAdded (sessionId : String) (messageId : String)
  | messageSubmitted (sessionId : String) (messageId : String)
  | sessionClosed (sessionId : String)
  | participantJoined (sessionId : String) (participantId : String)
  deriving Repr, DecidableEq

/-- The store state: `window.globalSessions` (insertion-ordered
association list keyed by session code) plus the log of dispatched
events. -/
structure StoreState where
  sessions : List (String × Session)
  events : List StoreEvent
  deriving Repr, DecidableEq

/-- Key lookup in the session table (`window.globalSessions[sessionId]`):
first (and in JS, only) entry whose key equals the code, exactly. -/
def lookupSessions (l : List (String × Session)) (k : String) : Option Session :=
  (l.find? (fun p => p.1 == k)).map (fun p => p.2)

/-- JS object assignment `window.globalSessions[sessionId] = v`: replace
the value at an existing key in place, else append a new entry. -/
def setEntry (l : List (String × Session)) (k : String) (v : Session) :
    List (String × Session) :=
  if l.any (fun p => p.1 == k) then
    l.map (fun p => if p.1 == k then (k, v) else p)
  else l ++ [(k, v)]

/-- `SessionManager.get` (src/app.js:1032): plain key lookup (the
array-to-`Set` normalization of `participants` is the identity in this
model). -/
def smGet (st : StoreState) (sessionId : String) : Option Session :=
  lookupSessions st.sessions sessionId

/-- `SessionManager.save` (src/app.js:1011): write the session under its
code and dispatch `sessionsUpdated`. -/
def smSave (st : StoreState) (sessionId : String) (sessionData : Session) : StoreState :=
  { sessions := setEntry st.sessions sessionId sessionData
    events := st.events ++ [StoreEvent.sessionsUpdated] }

/-- `SessionManager.addMessage` (src/app.js:1065): append the message to
the session's ordered list and save; `false` only if the session is
missing.  No capacity or activity check here. -/
def smAddMessage (st : StoreState) (sessionId : String) (message : Message) :
    Bool × StoreState :=
  match smGet st sessionId with
  | some session =>
      (true, smSave st sessionId { session with messages := session.messages ++ [message] })
  | none => (false, st)

/-- `SessionManager.addParticipant` (src/app.js:1077): insert the id if
absent (JS `Set` semantics) and save; returns `true` whenever the
session exists, with no capacity check. -/
def smAddParticipant (st : StoreState) (sessionId : String) (participantId : String) :
    Bool × StoreState :=
  match smGet st sessionId with
  | some session =>
      if session.participants.contains participantId then (true, st)
      else (true, smSave st sessionId
        { session with participants := session.participants ++ [participantId] })
  | none => (false, st)

/-- `SessionManager.delete` (src/app.js:1094): remove the entry for the
code; dispatches no event. -/
def smDelete (st : StoreState) (sessionId : String) : StoreState :=
  { st with sessions := st.sessions.filter (fun p => !(p.1 == sessionId)) }

/-- `getSession` (src/app.js:1305): reads through `SessionManager.get`;
the write into the `AppState.sessions` cache is not part of the model
state. -/
def getSession (st : StoreState) (sessionId : String) : Option Session :=
  smGet st sessionId

/-- JS `String.prototype.trim`: strip leading and trailing whitespace. -/
def jsTrim (s : String) : String :=
  String.mk (((s.data.dropWhile Char.isWhitespace).reverse.dropWhile Char.isWhitespace).reverse)

/-- Split a character list at every whitespace character (the pieces,
possibly empty, between whitespace occurrences).  JS `split(/\s+/)`
splits at whitespace runs instead; after the `filter(w => w.length > 0)`
of `countWords` the two give the same tokens. -/
def splitWsAux : List Char → List Char → List (List Char)
  | [], cur => [cur.reverse]
  | c :: cs, cur =>
      if c.isWhitespace then cur.reverse :: splitWsAux cs []
      else splitWsAux cs (c :: cur)

/-- `countWords` (src/app.js:1220): trim, split on whitespace, count the
nonempty tokens. -/
def countWords (text : String) : Nat :=
  ((splitWsAux (jsTrim text).data []).filter (fun w => w.length > 0)).length

/-- JS `x || null` on an optional string: the empty string is falsy and
collapses to `null`. -/
def orNull : Option String → Option String
  | some s => if s = "" then none else some s
  | none => none

/-- The non-deterministic inputs of one `addMessage` call: the page's
`AppState.socketId`, the `generateId('msg')` result, `Date.now()`, and
the `generateBottleColor()` result. -/
structure MsgEnv where
  socketId : String
  msgId : String
  now : Int
  color : String
  deriving Repr, DecidableEq

/-- The caller-supplied message fields (`handleSubmitMessage`'s
`message` object). -/
structure MessageInput where
  studentName : Option String
  isAnonymous : Bool
  selectedOption : Option String
  messageText : String
  deriving Repr, DecidableEq

/-- `addMessage` (src/app.js:1317).  Checks only that the session exists
and holds fewer than 100 messages — there is no `isActive` check in the
source.  On success: builds the message object, appends it via
`SessionManager.addMessage`, registers the submitter via
`SessionManager.addParticipant`, and dispatches `messageAdded` then
`messageSubmitted`. -/
def addMessage (env : MsgEnv) (st : StoreState) (sessionId : String)
    (minput : MessageInput) : Bool × StoreState :=
  match getSession st sessionId with
  | none => (false, st)
  | some session =>
      if session.messages.length ≥ 100 then (false, st)
      else
        let messageObj : Message :=
          { id := env.msgId
            participantId := env.socketId
            studentName := orNull minput.studentName
            isAnonymous := minput.isAnonymous
            selectedOption := orNull minput.selectedOption
            messageText := minput.messageText
            wordCount := countWords minput.messageText
            timestamp := env.now
            isRead := false
            bottlePosition := session.messages.length
            bottleColor := env.color }
        let r1 := smAddMessage st sessionId messageObj
        if r1.1 then
          let r2 := smAddParticipant r1.2 sessionId env.socketId
          (true, { r2.2 with events := r2.2.events ++
            [StoreEvent.messageAdded sessionId messageObj.id,
             StoreEvent.messageSubmitted sessionId messageObj.id] })
        else r1

/-- `closeSession` (src/app.js:1368): clear the active flag, save, and
dispatch `sessionClosed`; no-op when the session is missing (the
`clearTimeout` on the never-populated timer handle is dropped). -/
def closeSession (st : StoreState) (sessionId : String) : StoreState :=
  match getSession st sessionId with
  | none => st
  | some session =>
      let st1 := smSave st sessionId { session with isActive := false }
      { st1 with events := st1.events ++ [StoreEvent.sessionClosed sessionId] }

/-- The fixed retention window of `cleanupSessions`
(src/app.js:1180, `TWENTY_FOUR_HOURS`). -/
def retentionWindowMs : Int := 24 * 60 * 60 * 1000

/-- The deletion condition of the sweep loop (src/app.js:1187):
`now - session.createdAt > TWENTY_FOUR_HOURS && !session.isActive`. -/
def expired (now : Int) (p : String × Session) : Bool :=
  decide (now - p.2.createdAt > retentionWindowMs) && !p.2.isActive

/-- `cleanupSessions` (src/app.js:1178): delete every session that is
inactive and strictly older than 24 hours; JS objects have unique keys,
so per-entry `SessionManager.delete` equals this filter. -/
def cleanupSessions (now : Int) (st : StoreState) : StoreState :=
  { st with sessions := st.sessions.filter (fun p => !expired now p) }

/-- The code alphabet of `generateSessionCode` (src/app.js:1207):
`'ABCDEFGHIJKLMNOPQRSTUVWXYZ0123456789'`. -/
def codeChars : List Char := "ABCDEFGHIJKLMNOPQRSTUVWXYZ0123456789".data

/-- One candidate code built by the inner `for` loop of
`generateSessionCode` from 8 random alphabet indices
(`Math.floor(Math.random() * chars.length)`). -/
def mkCode (d : Fin 8 → Fin 36) : String :=
  String.mk ((List.finRange 8).map (fun i => codeChars.getD (d i).val 'A'))

/-- `generateSessionCode` (src/app.js:1203), with the random source made
explicit as a finite stream of 8-index draws: the `do`/`while` loop
regenerates while `SessionManager.get(code)` is truthy, i.e. it returns
the first candidate that is not an occupied code.  The source loops
forever on an exhausted stream, modelled by `none`. -/
def generateSessionCode (draws : List (Fin 8 → Fin 36)) (st : StoreState) : Option String :=
  (draws.map mkCode).find? (fun code => (smGet st code).isNone)

/-- The caller-supplied configuration of `createSession`
(`handleCreateSession`'s `config` object). -/
structure SessionConfig where
  mode : String
  question : Option String
  optionA : Option String
  optionB : Option String
  timeout : Int
  deriving Repr, DecidableEq

/-- `createSession` (src/app.js:1277): generate a fresh code, build the
session record with `isActive = true` and empty participants/messages,
save it, and dispatch `sessionCreated`.  `now` is `Date.now()`. -/
def createSession (draws : List (Fin 8 → Fin 36)) (now : Int) (st : StoreState)
    (config : SessionConfig) : Option (Session × StoreState) :=
  (generateSessionCode draws st).map (fun id =>
    let session : Session :=
      { id := id
        mode := config.mode
        question := orNull config.question
        optionA := orNull config.optionA
        optionB := orNull config.optionB
        timeout := config.timeout
        createdAt := now
        isActive := true
        participants := []
        messages := [] }
    let st1 := smSave st id session
    (session, { st1 with events := st1.events ++ [StoreEvent.sessionCreated id] }))

/-- `markAsRead`'s in-place mutation of the first message whose id
matches (src/app.js:1881, `session.messages.find(...)`). -/
def setRead : List Message → String → List Message
  | [], _ => []
  | m :: ms, messageId =>
      if m.id == messageId then { m with isRead := true } :: ms
      else m :: setRead ms messageId

/-- `markAsRead` (src/app.js:1878): flip the read flag of the first
message with the given id and save; no-op when session or message is
missing (the DOM/visualization side effects are out of the store). -/
def markAsRead (st : StoreState) (sessionId : String) (messageId : String) : StoreState :=
  match getSession st sessionId with
  | none => st
  | some session =>
      if session.messages.any (fun m => m.id == messageId) then
        smSave st sessionId { session with messages := setRead session.messages messageId }
      else st

/-- Outcome of a student landing on `#/join/CODE`. -/
inductive JoinResult where
  | notFound
  | ended
  | full
  | alreadySubmitted
  | joined
  deriving Repr, DecidableEq

/-- The store-relevant decision chain of `renderStudentLanding`
(src/app.js:1996): not-found and inactive redirects, the 100-participant
capacity gate, the already-submitted redirect, and otherwise
`SessionManager.addParticipant` followed by the `participantJoined`
event.  DOM rendering is dropped. -/
def renderStudentLanding (socketId : String) (st : StoreState) (sessionId : String) :
    JoinResult × StoreState :=
  match getSession st sessionId with
  | none => (JoinResult.notFound, st)
  | some session =>
      if session.isActive = false then (JoinResult.ended, st)
      else if session.participants.length ≥ 100 then (JoinResult.full, st)
      else if session.messages.any (fun m => m.participantId == socketId) then
        (JoinResult.alreadySubmitted, st)
      else
        let r := smAddParticipant st sessionId socketId
        (JoinResult.joined, { r.2 with events := r.2.events ++
          [StoreEvent.participantJoined sessionId socketId] })

/-- JS `String.prototype.toUpperCase` on the ASCII session codes. -/
def jsToUpper (s : String) : String :=
  String.mk (s.data.map Char.toUpper)

/-- The router's normalization of a student-entered or routed session
code (src/app.js:1430, `params[0].trim().toUpperCase()`); the code paths
for monitor/review/compose apply `toUpperCase()` alone. -/
def routerNormalizeCode (raw : String) : String :=
  jsToUpper (jsTrim raw)

/-- Left-pad a numeral with zeros to the given width (the fixed-width
fields of `Date.prototype.toISOString`). -/
def padNum (width : Nat) (n : Nat) : String :=
  let s := toString n
  String.mk (List.replicate (width - s.length) '0') ++ s

/-- The ECMAScript `Date.prototype.toISOString` UTC calendar conversion
(proleptic Gregorian, `YYYY-MM-DDTHH:mm:ss.sssZ`), which `exportMessages`
applies to each stored millisecond timestamp.  Modelled for timestamps
whose year lies in 0..9999, which covers every `Date.now()` value. -/
def isoString (ms : Int) : String :=
  let days := ms.ediv 86400000
  let msOfDay := (ms.emod 86400000).toNat
  let hh := msOfDay / 3600000
  let mm := msOfDay / 60000 % 60
  let ss := msOfDay / 1000 % 60
  let mss := msOfDay % 1000
  let z := days + 719468
  let era := z.ediv 146097
  let doe := (z.emod 146097).toNat
  let yoe := (doe - doe / 1460 + doe / 36524 - doe / 146096) / 365
  let doy := doe - (365 * yoe + yoe / 4 - yoe / 100)
  let mp := (5 * doy + 2) / 153
  let d := doy - (153 * mp + 2) / 5 + 1
  let m := if mp < 10 then mp + 3 else mp - 9
  let y := era * 400 + yoe + (if m ≤ 2 then 1 else 0)
  padNum 4 y.toNat ++ "-" ++ padNum 2 m ++ "-" ++ padNum 2 d ++ "T" ++
    padNum 2 hh ++ ":" ++ padNum 2 mm ++ ":" ++ padNum 2 ss ++ "." ++ padNum 3 mss ++ "Z"

/-- `msg.messageText.replace(/"/g, '""')` (src/app.js:1916): double
every double-quote character. -/
def csvEscape (s : String) : String :=
  String.mk (s.data.foldr (fun c acc => if c = '"' then '"' :: '"' :: acc else c :: acc) [])

/-- The `Name` field of one CSV row:
`msg.isAnonymous ? 'Anonymous' : (msg.studentName || 'Unknown')`. -/
def csvName (m : Message) : String :=
  if m.isAnonymous then "Anonymous"
  else match m.studentName with
    | some n => if n = "" then "Unknown" else n
    | none => "Unknown"

/-- The `Option` field of one CSV row: `msg.selectedOption || 'N/A'`. -/
def csvOption (m : Message) : String :=
  match m.selectedOption with
  | some o => if o = "" then "N/A" else o
  | none => "N/A"

/-- One CSV data row of `exportMessages` (src/app.js:1911):
`timestamp,name,anonymous,option,"message",wordCount\n`. -/
def csvRow (m : Message) : String :=
  isoString m.timestamp ++ "," ++ csvName m ++ "," ++
    (if m.isAnonymous then "Yes" else "No") ++ "," ++ csvOption m ++ "," ++
    "\"" ++ csvEscape m.messageText ++ "\"" ++ "," ++ toString m.wordCount ++ "\n"

/-- The fixed CSV header line of `exportMessages` (src/app.js:1909). -/
def csvHeader : String := "Timestamp,Name,Anonymous,Option,Message,Word Count\n"

/-- `exportMessages` (src/app.js:1902): `none` when the session is
missing or empty (the code shows a toast and returns), otherwise the
full CSV text handed to the download blob. -/
def exportMessages (st : StoreState) (sessionId : String) : Option String :=
  match getSession st sessionId with
  | none => none
  | some session =>
      if session.messages.length = 0 then none
      else some (csvHeader ++ String.join (session.messages.map csvRow))

/-- One pooled 3D bottle object.  `createBottle` also builds geometry,
materials, a y-offset and a random bob phase, none of which the
reconciliation logic reads; the pool membership is keyed entirely by the
attached message (`group.userData.message`). -/
structure Bottle where
  message : Message
  deriving Repr, DecidableEq

/-- `createBottle` (scene file, line 100), restricted to the state the
pool logic observes. -/
def createBottle (m : Message) : Bottle :=
  { message := m }

/-- `bottles.some(b => b.userData.message.id === message.id)`. -/
def hasBottle (pool : List Bottle) (i : String) : Bool :=
  pool.any (fun b => b.message.id == i)

/-- The display-eligibility test of the reconcile loop:
`!message.isRead || !clickableBottles`. -/
def bottleEligible (clickable : Bool) (m : Message) : Bool :=
  !m.isRead || !clickable

/-- `updateOceanBottles` (scene file, line 145): for each message in
order, create and append a bottle unless a bottle with the same message
id already exists or the message is ineligible; never removes. -/
def updateOceanBottles (clickable : Bool) (pool : List Bottle) :
    List Message → List Bottle
  | [] => pool
  | m :: ms =>
      let pool' :=
        if hasBottle pool m.id then pool
        else if bottleEligible clickable m then pool ++ [createBottle m]
        else pool
      updateOceanBottles clickable pool' ms

/-- Count of pooled bottles carrying a given message id. -/
def countBottles (pool : List Bottle) (i : String) : Nat :=
  (pool.filter (fun b => b.message.id == i)).length

/-- Messages submitted by a given participant in a session (the measure
of the one-message-per-participant invariant). -/
def msgsFrom (participantId : String) (msgs : List Message) : Nat :=
  (msgs.filter (fun m => m.participantId == participantId)).length

/-- The invariant of claim C3: every stored session holds at most one
message per participant id. -/
def oneMessagePerParticipant (st : StoreState) : Prop :=
  ∀ p ∈ st.sessions, ∀ participantId, msgsFrom participantId p.2.messages ≤ 1

/-! ## Store lemmas -/

theorem lookupSessions_mem {l : List (String × Session)} {k : String} {s : Session}
    (h : lookupSessions l k = some s) : (k, s) ∈ l := by
  unfold lookupSessions at h
  cases hf : l.find? (fun p => p.1 == k) with
  | none => rw [hf] at h; simp at h
  | some pr =>
      rw [hf] at h
      simp only [Option.map_some', Option.some.injEq] at h
      have hm := List.mem_of_find?_eq_some hf
      have hp := List.find?_some (p := fun q : String × Session => q.1 == k) hf
      have hk : pr.1 = k := by simpa using hp
      obtain ⟨a, b⟩ := pr
      simp only at hk h
      rw [hk, h] at hm
      exact hm

theorem lookupSessions_none_keys {l : List (String × Session)} {k : String}
    (h : lookupSessions l k = none) : ∀ p ∈ l, p.1 ≠ k := by
  unfold lookupSessions at h
  have hf : l.find? (fun p => p.1 == k) = none := by
    cases hf : l.find? (fun p => p.1 == k) with
    | none => rfl
    | some pr => rw [hf] at h; simp at h
  intro p hp
  have := List.find?_eq_none.mp hf p hp
  simpa using this

theorem mem_setEntry {l : List (String × Session)} {k : String} {v : Session}
    {q : String × Session} (hq : q ∈ setEntry l k v) : q = (k, v) ∨ q ∈ l := by
  unfold setEntry at hq
  by_cases ha : l.any (fun p => p.1 == k) = true
  · rw [if_pos ha] at hq
    obtain ⟨p, hp, hfp⟩ := List.mem_map.mp hq
    by_cases hk : (p.1 == k) = true
    · rw [if_pos hk] at hfp; exact Or.inl hfp.symm
    · rw [if_neg hk] at hfp; exact Or.inr (hfp ▸ hp)
  · rw [if_neg ha] at hq
    rcases List.mem_append.mp hq with h1 | h1
    · exact Or.inr h1
    · exact Or.inl (List.mem_singleton.mp h1)

theorem oneMessagePerParticipant_events {st : StoreState} {e : List StoreEvent}
    (h : oneMessagePerParticipant st) :
    oneMessagePerParticipant { st with events := e } := h

theorem oneMessagePerParticipant_save {st : StoreState} {sid : String} {v : Session}
    (h : oneMessagePerParticipant st)
    (hv : ∀ participantId, msgsFrom participantId v.messages ≤ 1) :
    oneMessagePerParticipant (smSave st sid v) := by
  intro p hp participantId
  rcases mem_setEntry hp with rfl | hp'
  · exact hv participantId
  · exact h p hp' participantId

theorem msgsFrom_append (participantId : String) (a b : List Message) :
    msgsFrom participantId (a ++ b) =
      msgsFrom participantId a + msgsFrom participantId b := by
  simp [msgsFrom, List.filter_append]

theorem msgsFrom_cons (participantId : String) (m : Message) (ms : List Message) :
    msgsFrom participantId (m :: ms) =
      (if m.participantId == participantId then 1 else 0) + msgsFrom participantId ms := by
  by_cases h : (m.participantId == participantId) = true <;>
    simp [msgsFrom, List.filter_cons, h, Nat.add_comm]

theorem msgsFrom_setRead (participantId : String) :
    ∀ (ms : List Message) (messageId : String),
      msgsFrom participantId (setRead ms messageId) = msgsFrom participantId ms := by
  intro ms
  induction ms with
  | nil => intro messageId; rfl
  | cons m ms ih =>
      intro messageId
      by_cases h : (m.id == messageId) = true
      · rw [setRead, if_pos h, msgsFrom_cons, msgsFrom_cons]
      · rw [setRead, if_neg h, msgsFrom_cons, msgsFrom_cons, ih]

theorem oneMessagePerParticipant_addParticipant {st : StoreState}
    (h : oneMessagePerParticipant st) (sid pid : String) :
    oneMessagePerParticipant (smAddParticipant st sid pid).2 := by
  unfold smAddParticipant
  cases hg : smGet st sid with
  | none => exact h
  | some s =>
      by_cases hc : s.participants.contains pid = true
      · simp only [hc, if_true]; exact h
      · simp only [hc, if_false, Bool.false_eq_true]
        exact oneMessagePerParticipant_save h
          (fun participantId => h (sid, s) (lookupSessions_mem hg) participantId)

/-! ## Visualization pool lemmas -/

theorem hasBottle_append (pool : List Bottle) (b : Bottle) (i : String) :
    hasBottle (pool ++ [b]) i = (hasBottle pool i || (b.message.id == i)) := by
  simp [hasBottle, List.any_append]

theorem updateOceanBottles_append (clickable : Bool) :
    ∀ (msgs : List Message) (pool : List Bottle),
      ∃ added, updateOceanBottles clickable pool msgs = pool ++ added := by
  intro msgs
  induction msgs with
  | nil => intro pool; exact ⟨[], by simp [updateOceanBottles]⟩
  | cons m ms ih =>
      intro pool
      rw [updateOceanBottles]
      by_cases h1 : hasBottle pool m.id = true
      · simpa [h1] using ih pool
      · by_cases h2 : bottleEligible clickable m = true
        · obtain ⟨rest, hr⟩ := ih (pool ++ [createBottle m])
          exact ⟨createBottle m :: rest, by
            simp only [h1, h2, if_true, if_false, Bool.false_eq_true]
            rw [hr, List.append_assoc]; rfl⟩
        · simpa [h1, h2] using ih pool

theorem hasBottle_updateOceanBottles (clickable : Bool) :
    ∀ (msgs : List Message) (pool : List Bottle) (i : String),
      hasBottle (updateOceanBottles clickable pool msgs) i =
        (hasBottle pool i || msgs.any (fun m => m.id == i && bottleEligible clickable m)) := by
  intro msgs
  induction msgs with
  | nil => intro pool i; simp [updateOceanBottles]
  | cons m ms ih =>
      intro pool i
      rw [updateOceanBottles]
      have step :
          hasBottle
              (if hasBottle pool m.id then pool
               else if bottleEligible clickable m then pool ++ [createBottle m] else pool) i =
            (hasBottle pool i || (m.id == i && bottleEligible clickable m)) := by
        by_cases h1 : hasBottle pool m.id = true
        · rw [if_pos h1]
          by_cases h3 : (m.id == i) = true
          · have : hasBottle pool i = true := by
              have : m.id = i := by simpa using h3
              rw [← this]; exact h1
            simp [this]
          · simp [h3]
        · rw [if_neg h1]
          by_cases h2 : bottleEligible clickable m = true
          · rw [if_pos h2, hasBottle_append]
            simp [createBottle, h2]
          · simp [h2]
      rw [ih, step, List.any_cons, Bool.or_assoc]

theorem countBottles_updateOceanBottles_of_has (clickable : Bool) :
    ∀ (msgs : List Message) (pool : List Bottle) (i : String),
      hasBottle pool i = true →
      countBottles (updateOceanBottles clickable pool msgs) i = countBottles pool i := by
  intro msgs
  induction msgs with
  | nil => intro pool i _; simp [updateOceanBottles]
  | cons m ms ih =>
      intro pool i hi
      rw [updateOceanBottles]
      by_cases h1 : hasBottle pool m.id = true
      · simpa [h1] using ih pool i hi
      · have h3 : (m.id == i) = false := by
          by_contra hc
          have h3t : (m.id == i) = true := by
            cases hmi : (m.id == i) with
            | false => exact absurd hmi hc
            | true => rfl
          have : m.id = i := by simpa using h3t
          rw [this] at h1
          exact h1 hi
        by_cases h2 : bottleEligible clickable m = true
        · simp only [h1, h2, if_true, if_false, Bool.false_eq_true]
          have hcount : countBottles (pool ++ [createBottle m]) i = countBottles pool i := by
            simp [countBottles, List.filter_append, createBottle, h3]
          have hhas : hasBottle (pool ++ [createBottle m]) i = true := by
            rw [hasBottle_append]; simp [createBottle, hi]
          rw [ih (pool ++ [createBottle m]) i hhas, hcount]
        · simpa [h1, h2] using ih pool i hi

theorem updateOceanBottles_stable (clickable : Bool) :
    ∀ (msgs : List Message) (pool : List Bottle),
      (∀ m ∈ msgs, bottleEligible clickable m = true → hasBottle pool m.id = true) →
      updateOceanBottles clickable pool msgs = pool := by
  intro msgs
  induction msgs with
  | nil => intro pool _; rfl
  | cons m ms ih =>
      intro pool hstable
      rw [updateOceanBottles]
      by_cases h1 : hasBottle pool m.id = true
      · simp only [h1, if_true]
        exact ih pool (fun x hx => hstable x (List.mem_cons_of_mem m hx))
      · have h2 : bottleEligible clickable m = false := by
          cases h2 : bottleEligible clickable m with
          | false => rfl
          | true => exact absurd (hstable m (List.mem_cons_self m ms) h2) h1
        simp only [h1, h2, if_false, Bool.false_eq_true]
        exact ih pool (fun x hx => hstable x (List.mem_cons_of_mem m hx))

/-! ## Session-code generation lemmas -/

theorem mkCode_length (d : Fin 8 → Fin 36) : (mkCode d).length = 8 := by
  simp [mkCode, String.length]

theorem codeChars_getD_mem : ∀ (n : Fin 36), codeChars.getD n.val 'A' ∈ codeChars := by
  decide

theorem mkCode_chars (d : Fin 8 → Fin 36) : ∀ c ∈ (mkCode d).data, c ∈ codeChars := by
  intro c hc
  simp only [mkCode] at hc
  obtain ⟨i, _, hi⟩ := List.mem_map.mp hc
  exact hi ▸ codeChars_getD_mem (d i)

/-! ## Claim C1 -/

/-- Concrete inactive session, as left behind by `closeSession`. -/
def inactiveSession : Session :=
  { id := "ZZZZ9999", mode := "free", question := none, optionA := none,
    optionB := none, timeout := 120, createdAt := 0, isActive := false,
    participants := [], messages := [] }

def inactiveStore : StoreState :=
  { sessions := [("ZZZZ9999", inactiveSession)], events := [] }

def demoEnv : MsgEnv :=
  { socketId := "socket_1", msgId := "msg_1", now := 1000, color := "blue" }

def demoInput : MessageInput :=
  { studentName := none, isAnonymous := true, selectedOption := none,
    messageText := "hello there" }

/-- C1: `addMessage` has no `isActive` check (src/app.js:1317 tests only
existence and the 100-message cap), so on a session with
`isActive = false` it returns success, appends the message, registers
the participant and dispatches events — contradicting the documented
behavior that an inactive session always rejects (the submission flow's
own failure toast reads "Session may be full or ended"). -/
theorem addMessage_inactive_session_accepted :
    inactiveSession.isActive = false ∧
    (addMessage demoEnv inactiveStore "ZZZZ9999" demoInput).1 = true ∧
    (lookupSessions (addMessage demoEnv inactiveStore "ZZZZ9999" demoInput).2.sessions
        "ZZZZ9999").map (fun s => s.messages.length) = some 1 ∧
    (addMessage demoEnv inactiveStore "ZZZZ9999" demoInput).2.events =
      [StoreEvent.sessionsUpdated, StoreEvent.sessionsUpdated,
       StoreEvent.messageAdded "ZZZZ9999" "msg_1",
       StoreEvent.messageSubmitted "ZZZZ9999" "msg_1"] :=
  ⟨rfl, rfl, rfl, rfl⟩

/-! ## Claim C2 -/

/-- C2: on a session already holding exactly 100 messages, `addMessage`
returns `false` and the entire store state — session table and event
log — is unchanged: no message appended, no participant registered, no
event emitted. -/
theorem addMessage_full_session_rejected (env : MsgEnv) (st : StoreState)
    (sessionId : String) (s : Session) (minput : MessageInput)
    (h : getSession st sessionId = some s) (hfull : s.messages.length = 100) :
    addMessage env st sessionId minput = (false, st) := by
  unfold addMessage
  simp only [h]
  have : s.messages.length ≥ 100 := by omega
  rw [if_pos this]

/-- A message record with arbitrary but fixed contents, used to fill a
session to its cap. -/
def fillerMessage : Message :=
  { id := "msg_0", participantId := "socket_0", studentName := none,
    isAnonymous := true, selectedOption := none, messageText := "hi",
    wordCount := 1, timestamp := 0, isRead := false, bottlePosition := 0,
    bottleColor := "red" }

def fullSession : Session :=
  { id := "FULL0000", mode := "free", question := none, optionA := none,
    optionB := none, timeout := 120, createdAt := 0, isActive := true,
    participants := ["socket_0"], messages := List.replicate 100 fillerMessage }

def fullStore : StoreState :=
  { sessions := [("FULL0000", fullSession)], events := [] }

theorem addMessage_full_session_rejected_witness :
    getSession fullStore "FULL0000" = some fullSession ∧
    fullSession.messages.length = 100 ∧
    addMessage demoEnv fullStore "FULL0000" demoInput = (false, fullStore) :=
  ⟨rfl, by simp [fullSession],
   addMessage_full_session_rejected demoEnv fullStore "FULL0000" fullSession demoInput
     rfl (by simp [fullSession])⟩

/-! ## Claim C4 -/

/-- Concrete store holding a session under its canonical uppercase
code. -/
def upperStore : StoreState :=
  { sessions := [("ABCDEFGH",
      { id := "ABCDEFGH", mode := "free", question := none, optionA := none,
        optionB := none, timeout := 120, createdAt := 0, isActive := true,
        participants := [], messages := [] })], events := [] }

/-- C4 counterexample: `getSession` itself is a case-sensitive exact
key lookup (src/app.js:1305 and `SessionManager.get`, src/app.js:1032,
apply no normalization): on `"abcdefgh"`, a string that uppercases to
the stored code `"ABCDEFGH"`, it returns not-found, while the exact
code resolves. -/
theorem getSession_lowercase_not_found :
    jsToUpper "abcdefgh" = "ABCDEFGH" ∧
    getSession upperStore "abcdefgh" = none ∧
    (getSession upperStore "ABCDEFGH").isSome = true :=
  ⟨rfl, rfl, rfl⟩

/-- C4 amended: case-insensitivity lives in the callers, not the store:
the router and join handler normalize every user-supplied code with
`trim().toUpperCase()` (src/app.js:1421-1440, 1974) before calling
`getSession`, so any string that normalizes to a stored session's code
resolves to that session. -/
theorem getSession_after_router_uppercase (st : StoreState) (raw code : String)
    (s : Session) (hstored : lookupSessions st.sessions code = some s)
    (hnorm : routerNormalizeCode raw = code) :
    getSession st (routerNormalizeCode raw) = some s := by
  rw [hnorm]
  exact hstored

theorem getSession_after_router_uppercase_witness :
    routerNormalizeCode " abcdefgh " = "ABCDEFGH" ∧
    (getSession upperStore (routerNormalizeCode " abcdefgh ")).isSome = true :=
  ⟨rfl, by
    rw [getSession_after_router_uppercase upperStore " abcdefgh " "ABCDEFGH"
      { id := "ABCDEFGH", mode := "free", question := none, optionA := none,
        optionB := none, timeout := 120, createdAt := 0, isActive := true,
        participants := [], messages := [] } rfl rfl]
    rfl⟩

/-! ## Claim C6 -/

/-- A session whose participant set is already at the 100 cap. -/
def cappedSession : Session :=
  { id := "CAPFULL1", mode := "free", question := none, optionA := none,
    optionB := none, timeout := 120, createdAt := 0, isActive := true,
    participants := (List.range 100).map (fun n => "p" ++ toString n),
    messages := [] }

def cappedStore : StoreState :=
  { sessions := [("CAPFULL1", cappedSession)], events := [] }

/-- C6 counterexample: the store's participant-adding operation
(`SessionManager.addParticipant`, src/app.js:1077) has no capacity
check: on a session whose participant set already has size 100 it
inserts the new identifier and the set grows to 101, rather than
rejecting. -/
theorem addParticipant_beyond_cap_inserted :
    cappedSession.participants.length = 100 ∧
    (smAddParticipant cappedStore "CAPFULL1" "socket_new").1 = true ∧
    (lookupSessions (smAddParticipant cappedStore "CAPFULL1" "socket_new").2.sessions
        "CAPFULL1").map (fun s => s.participants.length) = some 101 :=
  ⟨rfl, rfl, rfl⟩

/-- C6 amended: the 100-participant cap is enforced by the join flow,
not the store: `renderStudentLanding` (src/app.js:2022) rejects the
join and leaves the store unchanged whenever an active session's
participant count is already at least 100, while the store operation
itself (`SessionManager.addParticipant`) unconditionally inserts any
absent identifier. -/
theorem participant_cap_enforced_by_join_flow :
    (∀ (socketId : String) (st : StoreState) (sessionId : String) (s : Session),
      getSession st sessionId = some s → s.isActive = true →
      100 ≤ s.participants.length →
      renderStudentLanding socketId st sessionId = (JoinResult.full, st)) ∧
    (∀ (st : StoreState) (sessionId participantId : String) (s : Session),
      getSession st sessionId = some s →
      s.participants.contains participantId = false →
      smAddParticipant st sessionId participantId =
        (true, smSave st sessionId
          { s with participants := s.participants ++ [participantId] })) := by
  constructor
  · intro socketId st sessionId s h hact hcap
    unfold renderStudentLanding
    simp only [h]
    rw [if_neg (by rw [hact]; exact fun hf => Bool.noConfusion hf), if_pos hcap]
  · intro st sessionId participantId s h hfree
    unfold smAddParticipant
    simp only [getSession] at h
    simp only [h, hfree, Bool.false_eq_true, if_false]

theorem participant_cap_enforced_by_join_flow_witness :
    renderStudentLanding "socket_new" cappedStore "CAPFULL1" =
      (JoinResult.full, cappedStore) ∧
    smAddParticipant cappedStore "CAPFULL1" "socket_new" =
      (true, smSave cappedStore "CAPFULL1"
        { cappedSession with
            participants := cappedSession.participants ++ ["socket_new"] }) :=
  ⟨participant_cap_enforced_by_join_flow.1 "socket_new" cappedStore "CAPFULL1"
      cappedSession rfl rfl (by decide),
   participant_cap_enforced_by_join_flow.2 cappedStore "CAPFULL1" "socket_new"
      cappedSession rfl (by decide)⟩

/-! ## Claim C7 -/

/-- C7: the expiry sweep keeps a stored session exactly when it is
active or its age does not exceed the 24-hour retention window;
equivalently it removes exactly the sessions that are both inactive and
strictly older than the window, and an active session is never removed
regardless of age. -/
theorem cleanupSessions_removes_exactly_expired_inactive
    (now : Int) (st : StoreState) (sessionId : String) (s : Session) :
    (sessionId, s) ∈ (cleanupSessions now st).sessions ↔
      ((sessionId, s) ∈ st.sessions ∧
        (s.isActive = true ∨ now - s.createdAt ≤ retentionWindowMs)) := by
  unfold cleanupSessions expired
  simp only [List.mem_filter, Bool.not_eq_true']
  constructor
  · rintro ⟨hmem, hcond⟩
    refine ⟨hmem, ?_⟩
    by_cases hact : s.isActive = true
    · exact Or.inl hact
    · refine Or.inr ?_
      have hact' : s.isActive = false := by
        cases hA : s.isActive with
        | false => rfl
        | true => exact absurd hA hact
      simp only [hact', Bool.not_false, Bool.and_true, decide_eq_false_iff_not,
        not_lt] at hcond
      exact hcond
  · rintro ⟨hmem, hkeep⟩
    refine ⟨hmem, ?_⟩
    rcases hkeep with hact | hage
    · simp [hact]
    · simp only [Bool.and_eq_false_iff, decide_eq_false_iff_not, not_lt]
      exact Or.inl hage

/-! ## Claim C3 -/

/-- Draw stream yielding the code `"AAAAAAAA"` on the first attempt. -/
def zeroDraws : List (Fin 8 → Fin 36) := [fun _ => 0]

def freeConfig : SessionConfig :=
  { mode := "free", question := none, optionA := none, optionB := none,
    timeout := 120 }

/-- The store after `createSession` on an empty store. -/
def chainState1 : StoreState :=
  ((createSession zeroDraws 0 { sessions := [], events := [] } freeConfig).map
    (fun r => r.2)).getD { sessions := [], events := [] }

/-- ... after one `addMessage` from `socket_1`. -/
def chainState2 : StoreState :=
  (addMessage demoEnv chainState1 "AAAAAAAA" demoInput).2

/-- ... after a second `addMessage` from the same `socket_1`. -/
def chainState3 : StoreState :=
  (addMessage demoEnv chainState2 "AAAAAAAA" demoInput).2

/-- C3 counterexample: starting from the empty store and applying only
store operations (`createSession`, then `addMessage` twice with the
same `AppState.socketId`), the session ends up holding two messages
with the same participant identifier — the store does not preserve the
one-message-per-participant invariant under a repeated `addMessage`,
and the resulting reachable state violates it. -/
theorem one_message_invariant_violated_by_repeat_addMessage :
    (lookupSessions chainState3.sessions "AAAAAAAA").map
        (fun s => msgsFrom "socket_1" s.messages) = some 2 ∧
    ¬ oneMessagePerParticipant chainState3 := by
  refine ⟨by rfl, ?_⟩
  intro hinv
  cases hlk : lookupSessions chainState3.sessions "AAAAAAAA" with
  | none =>
      have : (none : Option Nat) = some 2 := by
        rw [← Option.map_none' (fun s : Session => msgsFrom "socket_1" s.messages), ← hlk]
        rfl
      exact Option.noConfusion this
  | some s =>
      have hcount : msgsFrom "socket_1" s.messages = 2 := by
        have : (lookupSessions chainState3.sessions "AAAAAAAA").map
            (fun x => msgsFrom "socket_1" x.messages) = some 2 := by rfl
        rw [hlk] at this
        simpa using this
      have hle : msgsFrom "socket_1" s.messages ≤ 1 :=
        hinv ("AAAAAAAA", s) (lookupSessions_mem hlk) "socket_1"
      omega

/-- C3 amended: the one-message-per-participant bound is not enforced
by the store itself; it is preserved by every store operation other
than `addMessage` unconditionally, and by `addMessage` exactly under
the submission flow's guard — the `hasSubmitted` check of
`renderComposer`/`renderStudentLanding` (src/app.js:2086, 2033), i.e.
the precondition that the submitting socket has no message in the
session yet.  An unguarded repeated `addMessage` violates the bound. -/
theorem one_message_invariant_guarded_ops (st : StoreState)
    (hinv : oneMessagePerParticipant st) :
    (∀ now, oneMessagePerParticipant (cleanupSessions now st)) ∧
    (∀ sessionId, oneMessagePerParticipant (closeSession st sessionId)) ∧
    (∀ sessionId messageId,
      oneMessagePerParticipant (markAsRead st sessionId messageId)) ∧
    (∀ sessionId participantId,
      oneMessagePerParticipant (smAddParticipant st sessionId participantId).2) ∧
    (∀ draws now config r, createSession draws now st config = some r →
      oneMessagePerParticipant r.2) ∧
    (∀ env sessionId minput,
      (∀ s, getSession st sessionId = some s → msgsFrom env.socketId s.messages = 0) →
      oneMessagePerParticipant (addMessage env st sessionId minput).2) := by
  refine ⟨?_, ?_, ?_, ?_, ?_, ?_⟩
  · intro now p hp participantId
    exact hinv p (List.mem_of_mem_filter hp) participantId
  · intro sessionId
    unfold closeSession
    cases hg : getSession st sessionId with
    | none => exact hinv
    | some s =>
        exact oneMessagePerParticipant_events
          (oneMessagePerParticipant_save hinv
            (fun participantId => hinv (sessionId, s) (lookupSessions_mem hg) participantId))
  · intro sessionId messageId
    unfold markAsRead
    cases hg : getSession st sessionId with
    | none => exact hinv
    | some s =>
        by_cases hf : (s.messages.any (fun m => m.id == messageId)) = true
        · simp only [hf, if_true]
          refine oneMessagePerParticipant_save hinv (fun participantId => ?_)
          rw [msgsFrom_setRead]
          exact hinv (sessionId, s) (lookupSessions_mem hg) participantId
        · simp only [hf, if_false, Bool.false_eq_true]
          exact hinv
  · intro sessionId participantId
    exact oneMessagePerParticipant_addParticipant hinv sessionId participantId
  · intro draws now config r hr
    unfold createSession at hr
    cases hgen : generateSessionCode draws st with
    | none => rw [hgen] at hr; exact Option.noConfusion hr
    | some code =>
        rw [hgen] at hr
        simp only [Option.map_some', Option.some.injEq] at hr
        rw [← hr]
        exact oneMessagePerParticipant_events
          (oneMessagePerParticipant_save hinv (fun participantId => by simp [msgsFrom]))
  · intro env sessionId minput hguard
    unfold addMessage
    cases hg : getSession st sessionId with
    | none => exact hinv
    | some s =>
        simp only
        by_cases hfull : (s.messages.length ≥ 100)
        · rw [if_pos hfull]; exact hinv
        · rw [if_neg hfull]
          have hguard' : msgsFrom env.socketId s.messages = 0 := hguard s hg
          have hmsg : ∀ participantId,
              msgsFrom participantId (s.messages ++
                [{ id := env.msgId, participantId := env.socketId,
                   studentName := orNull minput.studentName,
                   isAnonymous := minput.isAnonymous,
                   selectedOption := orNull minput.selectedOption,
                   messageText := minput.messageText,
                   wordCount := countWords minput.messageText,
                   timestamp := env.now, isRead := false,
                   bottlePosition := s.messages.length,
                   bottleColor := env.color }]) ≤ 1 := by
            intro participantId
            rw [msgsFrom_append]
            by_cases hpid : (env.socketId == participantId) = true
            · have : env.socketId = participantId := by simpa using hpid
              rw [← this, hguard']
              simp [msgsFrom, List.filter_cons, this]
            · have h1 : msgsFrom participantId s.messages ≤ 1 :=
                hinv (sessionId, s) (lookupSessions_mem hg) participantId
              have h0 : msgsFrom participantId
                  [{ id := env.msgId, participantId := env.socketId,
                     studentName := orNull minput.studentName,
                     isAnonymous := minput.isAnonymous,
                     selectedOption := orNull minput.selectedOption,
                     messageText := minput.messageText,
                     wordCount := countWords minput.messageText,
                     timestamp := env.now, isRead := false,
                     bottlePosition := s.messages.length,
                     bottleColor := env.color }] = 0 := by
                simp [msgsFrom, List.filter_cons, hpid]
              omega
          have hst1 : oneMessagePerParticipant
              (smAddMessage st sessionId
                { id := env.msgId, participantId := env.socketId,
                  studentName := orNull minput.studentName,
                  isAnonymous := minput.isAnonymous,
                  selectedOption := orNull minput.selectedOption,
                  messageText := minput.messageText,
                  wordCount := countWords minput.messageText,
                  timestamp := env.now, isRead := false,
                  bottlePosition := s.messages.length,
                  bottleColor := env.color }).2 := by
            unfold smAddMessage
            simp only [getSession] at hg
            simp only [hg]
            exact oneMessagePerParticipant_save hinv hmsg
          by_cases hok : (smAddMessage st sessionId
              { id := env.msgId, participantId := env.socketId,
                studentName := orNull minput.studentName,
                isAnonymous := minput.isAnonymous,
                selectedOption := orNull minput.selectedOption,
                messageText := minput.messageText,
                wordCount := countWords minput.messageText,
                timestamp := env.now, isRead := false,
                bottlePosition := s.messages.length,
                bottleColor := env.color }).1 = true
          · rw [if_pos hok]
            exact oneMessagePerParticipant_events
              (oneMessagePerParticipant_addParticipant hst1 sessionId env.socketId)
          · rw [if_neg hok]
            exact hst1

/-- A store holding one fresh active session, satisfying the invariant. -/
def guardSession : Session :=
  { id := "WSESSION", mode := "free", question := none, optionA := none,
    optionB := none, timeout := 120, createdAt := 0, isActive := true,
    participants := [], messages := [] }

def guardStore : StoreState :=
  { sessions := [("WSESSION", guardSession)], events := [] }

/-- The session and store produced by `createSession zeroDraws` on
`guardStore`. -/
def guardNewSession : Session :=
  { id := "AAAAAAAA", mode := "free", question := none, optionA := none,
    optionB := none, timeout := 120, createdAt := 0, isActive := true,
    participants := [], messages := [] }

def guardNewStore : StoreState :=
  { sessions := [("WSESSION", guardSession), ("AAAAAAAA", guardNewSession)],
    events := [StoreEvent.sessionsUpdated, StoreEvent.sessionCreated "AAAAAAAA"] }

theorem one_message_invariant_guarded_ops_witness :
    oneMessagePerParticipant (cleanupSessions 0 guardStore) ∧
    oneMessagePerParticipant (closeSession guardStore "WSESSION") ∧
    oneMessagePerParticipant (markAsRead guardStore "WSESSION" "msg_0") ∧
    oneMessagePerParticipant (smAddParticipant guardStore "WSESSION" "socket_9").2 ∧
    (createSession zeroDraws 0 guardStore freeConfig =
        some (guardNewSession, guardNewStore) ∧
      oneMessagePerParticipant guardNewStore) ∧
    oneMessagePerParticipant (addMessage demoEnv guardStore "WSESSION" demoInput).2 := by
  have hinv : oneMessagePerParticipant guardStore := by
    intro p hp participantId
    rcases List.mem_singleton.mp hp with rfl
    simp [guardSession, msgsFrom]
  have h := one_message_invariant_guarded_ops guardStore hinv
  refine ⟨h.1 0, h.2.1 "WSESSION", h.2.2.1 "WSESSION" "msg_0",
    h.2.2.2.1 "WSESSION" "socket_9",
    ⟨rfl, ?_⟩, ?_⟩
  · exact h.2.2.2.2.1 zeroDraws 0 freeConfig (guardNewSession, guardNewStore) rfl
  · refine h.2.2.2.2.2 demoEnv "WSESSION" demoInput (fun s hs => ?_)
    have h0 : getSession guardStore "WSESSION" = some guardSession := rfl
    rw [h0] at hs
    rcases Option.some.inj hs with rfl
    simp [guardSession, msgsFrom]

/-! ## Claim C5 -/

/-- C5: whenever `createSession` returns, the new session's code has
exactly 8 characters, every character is drawn from the uppercase
alphanumeric alphabet, and the code differs from the key of every
session already present in the store at creation time (the rejection
sampling of `generateSessionCode` only accepts a candidate whose
`SessionManager.get` is null). -/
theorem createSession_code_length_alphabet_unique
    (draws : List (Fin 8 → Fin 36)) (now : Int) (st : StoreState)
    (config : SessionConfig) (sess : Session) (st' : StoreState)
    (h : createSession draws now st config = some (sess, st')) :
    sess.id.length = 8 ∧ (∀ c ∈ sess.id.data, c ∈ codeChars) ∧
      ∀ p ∈ st.sessions, p.1 ≠ sess.id := by
  unfold createSession at h
  cases hg : generateSessionCode draws st with
  | none => rw [hg] at h; exact Option.noConfusion h
  | some code =>
      rw [hg] at h
      simp only [Option.map_some', Option.some.injEq, Prod.mk.injEq] at h
      obtain ⟨hsess, _⟩ := h
      have hid : sess.id = code := by rw [← hsess]
      unfold generateSessionCode at hg
      have hmem := List.mem_of_find?_eq_some hg
      have hpred := List.find?_some
        (p := fun code => (smGet st code).isNone) hg
      obtain ⟨d, _, hd⟩ := List.mem_map.mp hmem
      have hnone : smGet st code = none := Option.isNone_iff_eq_none.mp hpred
      refine ⟨?_, ?_, ?_⟩
      · rw [hid, ← hd]; exact mkCode_length d
      · rw [hid, ← hd]; exact mkCode_chars d
      · intro p hp
        rw [hid]
        exact lookupSessions_none_keys hnone p hp

def emptyStore : StoreState := { sessions := [], events := [] }

def firstSession : Session :=
  { id := "AAAAAAAA", mode := "free", question := none, optionA := none,
    optionB := none, timeout := 120, createdAt := 0, isActive := true,
    participants := [], messages := [] }

def firstStore : StoreState :=
  { sessions := [("AAAAAAAA", firstSession)],
    events := [StoreEvent.sessionsUpdated, StoreEvent.sessionCreated "AAAAAAAA"] }

theorem createSession_code_length_alphabet_unique_witness :
    createSession zeroDraws 0 emptyStore freeConfig = some (firstSession, firstStore) ∧
    firstSession.id.length = 8 ∧ (∀ c ∈ firstSession.id.data, c ∈ codeChars) ∧
    ∀ p ∈ emptyStore.sessions, p.1 ≠ firstSession.id :=
  ⟨rfl, createSession_code_length_alphabet_unique zeroDraws 0 emptyStore freeConfig
    firstSession firstStore rfl⟩

/-! ## Claim C9 -/

/-- C9: for a session with at least one message, `exportMessages`
produces exactly the header line
`Timestamp,Name,Anonymous,Option,Message,Word Count` followed by one
row per message in insertion order; each row carries the ISO-8601
rendering of the message timestamp, the name `Anonymous` when the
anonymity flag is set (else the display name or `Unknown`), the
`Yes`/`No` anonymity column, the selected option or `N/A`, the message
text wrapped in double quotes with every internal quote doubled, and
the stored word count. -/
theorem exportMessages_csv_format (st : StoreState) (sessionId : String)
    (s : Session) (h : getSession st sessionId = some s)
    (hne : s.messages.length ≠ 0) :
    exportMessages st sessionId =
      some ("Timestamp,Name,Anonymous,Option,Message,Word Count\n" ++
        String.join (s.messages.map (fun m =>
          isoString m.timestamp ++ "," ++
          (if m.isAnonymous then "Anonymous"
           else match m.studentName with
             | some n => if n = "" then "Unknown" else n
             | none => "Unknown") ++ "," ++
          (if m.isAnonymous then "Yes" else "No") ++ "," ++
          (match m.selectedOption with
           | some o => if o = "" then "N/A" else o
           | none => "N/A") ++ "," ++
          "\"" ++ csvEscape m.messageText ++ "\"" ++ "," ++
          toString m.wordCount ++ "\n"))) := by
  unfold exportMessages
  simp only [h]
  rw [if_neg hne]
  rfl

/-- A session holding the spec's example: one anonymous message whose
text contains a double quote. -/
def quoteMessage : Message :=
  { id := "msg_q", participantId := "socket_q", studentName := none,
    isAnonymous := true, selectedOption := none,
    messageText := "He said \"hi\"", wordCount := countWords "He said \"hi\"",
    timestamp := 0, isRead := false, bottlePosition := 0, bottleColor := "teal" }

def quoteSession : Session :=
  { id := "EXPORTAA", mode := "free", question := none, optionA := none,
    optionB := none, timeout := 120, createdAt := 0, isActive := false,
    participants := ["socket_q"], messages := [quoteMessage] }

def quoteStore : StoreState :=
  { sessions := [("EXPORTAA", quoteSession)], events := [] }

theorem exportMessages_csv_format_witness :
    getSession quoteStore "EXPORTAA" = some quoteSession ∧
    quoteSession.messages.length ≠ 0 ∧
    exportMessages quoteStore "EXPORTAA" =
      some ("Timestamp,Name,Anonymous,Option,Message,Word Count\n" ++
        "1970-01-01T00:00:00.000Z,Anonymous,Yes,N/A,\"He said \"\"hi\"\"\",3\n") :=
  ⟨rfl, by decide,
   (exportMessages_csv_format quoteStore "EXPORTAA" quoteSession rfl
     (by decide)).trans rfl⟩

/-! ## Claim C10 -/

/-- C10: with the random source modelled as a stream of candidate
draws, `generateSessionCode`'s rejection-sampling loop terminates with
a result as soon as the stream contains some draw whose code is not an
occupied key, and the code it returns is the one built from the first
such draw: every earlier draw's code is occupied. -/
theorem generateSessionCode_terminates_first_unoccupied :
    ∀ (draws : List (Fin 8 → Fin 36)) (st : StoreState),
      (∃ d ∈ draws, smGet st (mkCode d) = none) →
      ∃ d pre suf, draws = pre ++ d :: suf ∧
        generateSessionCode draws st = some (mkCode d) ∧
        smGet st (mkCode d) = none ∧
        ∀ d' ∈ pre, smGet st (mkCode d') ≠ none := by
  intro draws
  induction draws with
  | nil =>
      intro st h
      obtain ⟨d, hd, _⟩ := h
      exact absurd hd (List.not_mem_nil d)
  | cons a l ih =>
      intro st h
      by_cases ha : smGet st (mkCode a) = none
      · refine ⟨a, [], l, rfl, ?_, ha, fun d' hd' => absurd hd' (List.not_mem_nil d')⟩
        unfold generateSessionCode
        simp only [List.map_cons]
        rw [List.find?_cons_of_pos]
        simp [ha]
      · have h' : ∃ d ∈ l, smGet st (mkCode d) = none := by
          obtain ⟨d, hd, hnone⟩ := h
          rcases List.mem_cons.mp hd with rfl | hdl
          · exact absurd hnone ha
          · exact ⟨d, hdl, hnone⟩
        obtain ⟨d, pre, suf, hdecomp, hfind, hnone, hpre⟩ := ih st h'
        refine ⟨d, a :: pre, suf, by rw [hdecomp]; rfl, ?_, hnone, ?_⟩
        · unfold generateSessionCode at hfind ⊢
          simp only [List.map_cons]
          rw [List.find?_cons_of_neg, hfind]
          simp [Option.isNone_iff_eq_none, ha]
        · intro d' hd'
          rcases List.mem_cons.mp hd' with rfl | hd''
          · exact ha
          · exact hpre d' hd''

def drawA : Fin 8 → Fin 36 := fun _ => 0

def drawB : Fin 8 → Fin 36 := fun _ => 1

theorem generateSessionCode_terminates_first_unoccupied_witness :
    (generateSessionCode [drawA, drawB] firstStore).isSome = true ∧
    generateSessionCode [drawA, drawB] firstStore = some "BBBBBBBB" := by
  constructor
  · obtain ⟨d, pre, suf, _, hfind, _, _⟩ :=
      generateSessionCode_terminates_first_unoccupied [drawA, drawB] firstStore
        ⟨drawB, List.mem_cons_of_mem drawA (List.mem_cons_self drawB []), by rfl⟩
    rw [hfind]
    rfl
  · rfl

/-! ## Claim C8 -/

/-- C8: the visualization's reconcile operation is add-only and
idempotent by message identifier: (1) it only ever appends to the
current pool; (2) after a run, a bottle for identifier `i` is present
exactly when it already was or when some listed message with that
identifier is eligible (unread, or the display mode is
non-interactive); (3) it never creates a second bottle for an
identifier that is already pooled; (4) running it twice with the same
message list leaves the pool identical to running it once. -/
theorem updateOceanBottles_add_only_idempotent :
    (∀ (clickable : Bool) (pool : List Bottle) (msgs : List Message),
      ∃ added, updateOceanBottles clickable pool msgs = pool ++ added) ∧
    (∀ (clickable : Bool) (pool : List Bottle) (msgs : List Message) (i : String),
      hasBottle (updateOceanBottles clickable pool msgs) i =
        (hasBottle pool i || msgs.any (fun m => m.id == i && bottleEligible clickable m))) ∧
    (∀ (clickable : Bool) (pool : List Bottle) (msgs : List Message) (i : String),
      hasBottle pool i = true →
      countBottles (updateOceanBottles clickable pool msgs) i = countBottles pool i) ∧
    (∀ (clickable : Bool) (pool : List Bottle) (msgs : List Message),
      updateOceanBottles clickable (updateOceanBottles clickable pool msgs) msgs =
        updateOceanBottles clickable pool msgs) := by
  refine ⟨fun c pool msgs => updateOceanBottles_append c msgs pool,
    fun c pool msgs i => hasBottle_updateOceanBottles c msgs pool i,
    fun c pool msgs i h => countBottles_updateOceanBottles_of_has c msgs pool i h,
    fun c pool msgs => ?_⟩
  refine updateOceanBottles_stable c msgs (updateOceanBottles c pool msgs)
    (fun m hm helig => ?_)
  rw [hasBottle_updateOceanBottles]
  have hany : msgs.any (fun x => x.id == m.id && bottleEligible c x) = true :=
    List.any_eq_true.mpr ⟨m, hm, by rw [helig]; simp⟩
  simp [hany]

/-- An unread message, eligible for a bottle in every display mode. -/
def unreadMsg : Message :=
  { id := "m1", participantId := "p1", studentName := none, isAnonymous := true,
    selectedOption := none, messageText := "a", wordCount := 1, timestamp := 0,
    isRead := false, bottlePosition := 0, bottleColor := "c1" }

/-- A message already marked read, ineligible in interactive mode. -/
def readMsg : Message :=
  { id := "m2", participantId := "p2", studentName := none, isAnonymous := true,
    selectedOption := none, messageText := "b", wordCount := 1, timestamp := 0,
    isRead := true, bottlePosition := 1, bottleColor := "c2" }

theorem updateOceanBottles_add_only_idempotent_witness :
    hasBottle (updateOceanBottles true [] [unreadMsg, readMsg]) "m1" = true ∧
    countBottles (updateOceanBottles true [createBottle unreadMsg]
        [unreadMsg, readMsg]) "m1" =
      countBottles [createBottle unreadMsg] "m1" ∧
    updateOceanBottles true (updateOceanBottles true [] [unreadMsg, readMsg])
        [unreadMsg, readMsg] =
      updateOceanBottles true [] [unreadMsg, readMsg] :=
  ⟨(updateOceanBottles_add_only_idempotent.2.1 true [] [unreadMsg, readMsg]
      "m1").trans (by rfl),
   updateOceanBottles_add_only_idempotent.2.2.1 true [createBottle unreadMsg]
     [unreadMsg, readMsg] "m1" rfl,
   updateOceanBottles_add_only_idempotent.2.2.2 true [] [unreadMsg, readMsg]⟩
